import Mathlib

/-!
Verification development for the simple render pipeline of a JPEG XL decoder
(`src/jxl/src/render/simple_pipeline.rs`). The Rust code is shallowly embedded:
pure computations become Lean functions, `&mut self` methods become explicit
state-passing functions, fallible operations return `Except`, and `assert!` /
index panics are modelled as a distinguished `Failure.fatal` outcome.
Sample values are only moved (never arithmetically combined) by the pipeline
core, so the `f64` transport type is modelled by an opaque value type `Sample`
(`Int`), with the `to_f64` conversions (which are injective on the integer
sample types) treated as the identity on already-converted values.
-/

namespace JXL

/-- Sample values carried by the pipeline buffers. The pipeline core only
copies samples between buffers; no floating-point arithmetic is performed on
them, so an integer value universe is a faithful model. -/
abbrev Sample := Int

/-- Modelled from the spec: `ShiftRightCeil::shrc` (its defining module is not
part of the provided sources; the spec defines downsampled dimensions as
`ceil(size >> shift)`). `shrc n k = ceil(n / 2^k)`. -/
def shrc (n k : Nat) : Nat := (n + (1 <<< k) - 1) >>> k

/-- Modelled from the spec: the closed enumeration `DataTypeTag` of supported
per-sample types (u8/u16/u32, half/single/double float); `image.rs` is not part
of the provided sources. -/
inductive DataTypeTag where
  | u8 | u16 | u32 | f16 | f32 | f64
deriving DecidableEq

/-- Modelled from the spec: the error kinds of section 7 relevant to the
pipeline core (`error.rs` is not part of the provided sources). `other`
stands for arbitrary decoder-side errors surfaced through fill callbacks. -/
inductive Error where
  | outOfMemory
  | outOfBounds
  | pipelineChannelTypeMismatch (channel : Nat) (expected actual : DataTypeTag)
  | pipelineShiftAfterExpand
  | pipelineChannelUnused (channel : Nat)
  | arithmeticOverflow
  | other (code : Nat)
deriving DecidableEq

/-- Sites at which the Rust code can panic (assert failures, `unwrap`, index
out of bounds). Panics are not `Error` values in Rust, so they are kept apart
from recoverable errors. -/
inductive AbortSite where
  | buildTypeAssert
  | misalignedGroup
  | unknownChannelType
  | emptyGroupList
  | groupIdOutOfRange
  | malformed
deriving DecidableEq

/-- Outcome of a fallible Rust operation: a recoverable `Error` or a panic. -/
inductive Failure where
  | err (e : Error)
  | fatal (s : AbortSite)
deriving DecidableEq

/-- Model of `Image<f64>`: a size together with a total indexing function
`data row col`. `Image::new` zero-initialises. -/
structure ImageF where
  size : Nat × Nat
  data : Nat → Nat → Sample

/-- Model of `Image::new`: zero-filled buffer of the given `(xsize, ysize)`. -/
def ImageF.new (size : Nat × Nat) : ImageF := ⟨size, fun _ _ => 0⟩

/-- Writing one sample at `(row y, column x)`, as `img.as_rect_mut().row(y)[x] = v`. -/
def ImageF.set (img : ImageF) (y x : Nat) (v : Sample) : ImageF :=
  { img with data := fun y' x' => if y' = y ∧ x' = x then v else img.data y' x' }

/-- The four structural stage variants (`RenderPipelineStageType`). -/
inductive RenderPipelineStageType where
  | Input | InPlace | InOut | Extend
deriving DecidableEq

/-- Model of a boxed `dyn RunStage` trait object: the capabilities the simple
pipeline consumes from a stage (`uses_channel`, `input_type`, `output_type`,
`SHIFT`, structural kind, `new_size`, `original_data_origin`, and the chunked
execution behaviour `run_stage_on`, modelled as a function from chunk size,
used-channel input buffers and used-channel output buffers to the new
used-channel output buffers). -/
structure Stage where
  uses_channel : Nat → Bool
  input_type : DataTypeTag
  output_type_const : Option DataTypeTag
  shift : Nat × Nat
  stage_type : RenderPipelineStageType
  new_size : Nat × Nat → Nat × Nat
  original_data_origin : Nat × Nat
  run_stage_on : Nat → List ImageF → List ImageF → List ImageF

/-- `RunStage::output_type`: `OUTPUT_TYPE.unwrap_or(INPUT_TYPE)`. -/
def Stage.output_type (s : Stage) : DataTypeTag := s.output_type_const.getD s.input_type

/-- Default stage used for out-of-range `getD` reads in lemma statements. -/
def default_stage : Stage :=
  ⟨fun _ => false, .u8, none, (0, 0), .Input, fun s => s, (0, 0), fun _ _ outs => outs⟩

/-- Per-channel, per-stage-boundary record `ChannelInfo { ty, downsample }`. -/
structure ChannelInfo where
  ty : Option DataTypeTag
  downsample : Nat × Nat
deriving DecidableEq

/-- Default `ChannelInfo` used for out-of-range `getD` reads in lemma
statements (such reads never occur on well-formed pipelines). -/
def default_ci : ChannelInfo := ⟨none, (0, 0)⟩

/-- Model of the `SimpleRenderPipeline` struct. -/
structure SimpleRenderPipeline where
  channel_info : List (List ChannelInfo)
  input_size : Nat × Nat
  log_group_size : Nat
  xgroups : Nat
  stages : List Stage
  group_ready_passes : List Nat
  completed_passes : Nat
  input_buffers : List ImageF
  chunk_size : Nat

/-- Model of the `SimpleRenderPipelineBuilder` struct. -/
structure SimpleRenderPipelineBuilder where
  pipeline : SimpleRenderPipeline
  can_shift : Bool

/-- `SimpleRenderPipelineBuilder::new_with_chunk_size` (the source asserts
`chunk_size <= u16::MAX`; all chunk sizes used below satisfy this). -/
def new_with_chunk_size (num_channels : Nat) (size : Nat × Nat)
    (log_group_size chunk_size : Nat) : SimpleRenderPipelineBuilder :=
  { pipeline :=
      { channel_info := [List.replicate num_channels { ty := none, downsample := (0, 0) }]
        input_size := size
        log_group_size := log_group_size
        xgroups := shrc size.1 log_group_size
        stages := []
        group_ready_passes :=
          List.replicate (shrc size.1 log_group_size * shrc size.2 log_group_size) 0
        completed_passes := 0
        input_buffers := []
        chunk_size := chunk_size }
    can_shift := true }

/-- `RenderPipelineBuilder::new`: chunk size defaults to 256. -/
def builder_new (num_channels : Nat) (size : Nat × Nat) (log_group_size : Nat) :
    SimpleRenderPipelineBuilder :=
  new_with_chunk_size num_channels size log_group_size 256

/-- The per-channel loop of `add_stage` building `after_info`; `c` is the
channel index of the list head. -/
def after_info_loop (stage : Stage) : Nat → List ChannelInfo →
    Except Failure (List ChannelInfo)
  | _, [] => .ok []
  | c, info :: rest =>
    if stage.uses_channel c = false then
      (after_info_loop stage (c + 1) rest).map
        (fun out => { ty := info.ty, downsample := (0, 0) } :: out)
    else
      match info.ty with
      | some ty =>
        if ty ≠ stage.input_type then
          .error (.err (.pipelineChannelTypeMismatch c stage.input_type ty))
        else
          (after_info_loop stage (c + 1) rest).map
            (fun out => { ty := some stage.output_type, downsample := stage.shift } :: out)
      | none =>
        (after_info_loop stage (c + 1) rest).map
          (fun out => { ty := some stage.output_type, downsample := stage.shift } :: out)

/-- `RenderPipelineBuilder::add_stage` for the simple pipeline. -/
def add_stage (b : SimpleRenderPipelineBuilder) (stage : Stage) :
    Except Failure SimpleRenderPipelineBuilder :=
  Except.bind (after_info_loop stage 0 (b.pipeline.channel_info.getLast?.getD []))
    (fun after_info =>
      if b.can_shift = false ∧ stage.shift ≠ (0, 0) then
        .error (.err .pipelineShiftAfterExpand)
      else
        .ok { pipeline := { b.pipeline with
                channel_info := b.pipeline.channel_info ++ [after_info]
                stages := b.pipeline.stages ++ [stage] }
              can_shift :=
                if stage.stage_type = RenderPipelineStageType.Extend then false
                else b.can_shift })

/-- The sample-type part of one channel iteration of the reverse sweep in
`build` (lines 136-141): back-propagate through a non-using stage only when
the current entry is unknown; otherwise assert agreement with the stage's
output type and rewrite to its input type. The `assert_eq!` panic is the
`fatal .buildTypeAssert` outcome. -/
def chan_ty_step (stage : Stage) (c : Nat) (cur next : ChannelInfo) :
    Except Failure (Option DataTypeTag) :=
  if cur.ty = none ∧ stage.uses_channel c = false then .ok next.ty
  else if next.ty = some stage.output_type then .ok (some stage.input_type)
  else .error (.fatal .buildTypeAssert)

/-- The downsample part of one channel iteration of the reverse sweep
(lines 144-155): `cur_downsample += next_downsample` with `u8` checked
addition (which fails exactly when the sum exceeds 255), first the x then the
y component. -/
def chan_ds_step (d nextds : Nat × Nat) : Except Failure (Nat × Nat) :=
  if d.1 + nextds.1 ≤ 255 then
    if d.2 + nextds.2 ≤ 255 then .ok (d.1 + nextds.1, d.2 + nextds.2)
    else .error (.err .arithmeticOverflow)
  else .error (.err .arithmeticOverflow)

/-- One stage iteration of the reverse sweep of `build`, walking the channels
in increasing order. Returns the updated current row (new `ty`), the updated
next row (its `downsample` overwritten with the pre-addition running total,
line 155), and the new running totals. List-length mismatches cannot occur on
builder-produced rows and are mapped to `fatal .malformed`. -/
def sweep_chans (stage : Stage) : Nat → List ChannelInfo → List ChannelInfo →
    List (Nat × Nat) →
    Except Failure (List ChannelInfo × List ChannelInfo × List (Nat × Nat))
  | _, [], [], [] => .ok ([], [], [])
  | c, cur :: curR, next :: nextR, d :: dR =>
    Except.bind (chan_ty_step stage c cur next) (fun newTy =>
    Except.bind (chan_ds_step d next.downsample) (fun nd =>
    Except.bind (sweep_chans stage (c + 1) curR nextR dR) (fun rest =>
    .ok ({ cur with ty := newTy } :: rest.1, { next with downsample := d } :: rest.2.1,
         nd :: rest.2.2))))
  | _, _, _, _ => .error (.fatal .malformed)

/-- The reverse stage walk of `build` (lines 129-157). Processing the stage
list head last corresponds to the Rust loop running from the last stage down
to stage 0; `cur_downsamples` starts as zeroes for the empty suffix. -/
def back_sweep (numc : Nat) : List Stage → List (List ChannelInfo) →
    Except Failure (List (List ChannelInfo) × List (Nat × Nat))
  | [], rows => .ok (rows, List.replicate numc (0, 0))
  | stage :: sts, rows =>
    match rows with
    | [] => .error (.fatal .malformed)
    | r :: rest =>
      Except.bind (back_sweep numc sts rest) (fun res =>
        match res.1 with
        | [] => .error (.fatal .malformed)
        | next :: tail =>
          Except.bind (sweep_chans stage 0 r next res.2) (fun sres =>
            .ok (sres.1 :: sres.2.1 :: tail, sres.2.2)))

/-- The channel-unused scan of `build` (lines 178-182) over one row; `c` is
the channel index of the list head. -/
def find_unused_row (c : Nat) : List ChannelInfo → Option Nat
  | [] => none
  | ci :: rest => if ci.ty = none then some c else find_unused_row (c + 1) rest

/-- The channel-unused scan of `build` over all rows. -/
def find_unused : List (List ChannelInfo) → Option Nat
  | [] => none
  | r :: rest =>
    match find_unused_row 0 r with
    | some c => some c
    | none => find_unused rest

/-- Storing the final cumulative downsamples into row 0 (lines 158-160). -/
def set_row0_ds (row0 : List ChannelInfo) (cur_ds : List (Nat × Nat)) :
    List ChannelInfo :=
  List.zipWith (fun ci d => { ci with downsample := d }) row0 cur_ds

/-- `RenderPipelineBuilder::build` for the simple pipeline: run the reverse
sweep, store the final cumulative downsamples into row 0, check that every
channel's type is known, and allocate the per-channel input buffers at the
input downsampling. -/
def build (b : SimpleRenderPipelineBuilder) : Except Failure SimpleRenderPipeline :=
  Except.bind
    (back_sweep (b.pipeline.channel_info.headD []).length b.pipeline.stages
      b.pipeline.channel_info)
    (fun res =>
      match find_unused (set_row0_ds (res.1.headD []) res.2 :: res.1.tail) with
      | some c => .error (.err (.pipelineChannelUnused c))
      | none =>
        .ok { b.pipeline with
              channel_info := set_row0_ds (res.1.headD []) res.2 :: res.1.tail
              input_buffers := (set_row0_ds (res.1.headD []) res.2).map (fun x =>
                ImageF.new (shrc b.pipeline.input_size.1 x.downsample.1,
                            shrc b.pipeline.input_size.2 x.downsample.2)) })

/-- Folding a stage list through `add_stage` starting from a fresh builder. -/
def build_all (num_channels : Nat) (size : Nat × Nat) (log_group_size : Nat)
    (stages : List Stage) : Except Failure SimpleRenderPipelineBuilder :=
  stages.foldlM add_stage (builder_new num_channels size log_group_size)

/-- The componentwise sum of the `SHIFT` values of exactly those stages that
use channel `c` (stages not using the channel contribute `(0,0)`). -/
def total_shift (stages : List Stage) (c : Nat) : Nat × Nat :=
  stages.foldr
    (fun s acc => if s.uses_channel c then (s.shift.1 + acc.1, s.shift.2 + acc.2) else acc)
    (0, 0)

/-- Shape invariant of a builder reachable by `add_stage` calls from
`builder_new numc size log`: the input size is kept, there is one channel row
more than there are stages, every row has `numc` entries, and the row after
stage `s` records downsample `SHIFT` for channels the stage uses and `(0,0)`
for the others. -/
def BuilderInv (numc : Nat) (size : Nat × Nat) (b : SimpleRenderPipelineBuilder) : Prop :=
  b.pipeline.input_size = size ∧
  b.pipeline.channel_info.length = b.pipeline.stages.length + 1 ∧
  (∀ r ∈ b.pipeline.channel_info, r.length = numc) ∧
  (∀ s c, s < b.pipeline.stages.length → c < numc →
    ((b.pipeline.channel_info.getD (s + 1) []).getD c default_ci).downsample =
      (if (b.pipeline.stages.getD s default_stage).uses_channel c then
        (b.pipeline.stages.getD s default_stage).shift else (0, 0)))

/-! ## Runtime: `do_render` and the stage chain -/

/-- `iter().min()` over the group-ready-pass counters. -/
def list_min : List Nat → Option Nat
  | [] => none
  | x :: xs => some (xs.foldl Nat.min x)

/-- `clone_images` (lines 213-215): a deep copy of immutable values is the
value itself; the fallible allocation is controlled by `alloc_ok`
(`false` models an allocation failure, returning `OutOfMemory`). -/
def clone_images (alloc_ok : Bool) (imgs : List ImageF) : Except Failure (List ImageF) :=
  if alloc_ok then .ok imgs else .error (.err .outOfMemory)

/-- The `filter(|x| stage.uses_channel(x.0))` view selection of `do_render`
(lines 253-264); `c` is the channel index of the list head. -/
def used_channels_go (uses : Nat → Bool) : Nat → List ImageF → List ImageF
  | _, [] => []
  | c, b :: bs =>
    if uses c then b :: used_channels_go uses (c + 1) bs
    else used_channels_go uses (c + 1) bs

/-- Used-channel view of a buffer list. -/
def used_channels (stage : Stage) (bufs : List ImageF) : List ImageF :=
  used_channels_go stage.uses_channel 0 bufs

/-- Writing the stage's used-channel outputs back through the mutable views:
the entries of `bufs` at used channel positions are replaced in order by the
entries of `vals`. -/
def scatter_used_go (uses : Nat → Bool) : Nat → List ImageF → List ImageF → List ImageF
  | _, [], _ => []
  | c, b :: bs, vals =>
    if uses c then
      match vals with
      | v :: vr => v :: scatter_used_go uses (c + 1) bs vr
      | [] => b :: scatter_used_go uses (c + 1) bs []
    else b :: scatter_used_go uses (c + 1) bs vals

/-- Scatter of used-channel outputs into the full output buffer list. -/
def scatter_used (stage : Stage) (bufs vals : List ImageF) : List ImageF :=
  scatter_used_go stage.uses_channel 0 bufs vals

/-- The buffer reallocation of `do_render` (lines 244-251): for every channel
the stage uses, replace the output buffer by a fresh one sized from the new
current size and the channel's downsample recorded after this stage. -/
def realloc_used_go (stage : Stage) (current_size : Nat × Nat) :
    Nat → List ChannelInfo → List ImageF → List ImageF
  | _, _, [] => []
  | _, [], bufs => bufs
  | c, info :: irest, b :: brest =>
    (if stage.uses_channel c then
       ImageF.new (shrc current_size.1 info.downsample.1, shrc current_size.2 info.downsample.2)
     else b) :: realloc_used_go stage current_size (c + 1) irest brest

/-- The stage loop of `do_render` (lines 238-267). `i` is the stage index so
that `channel_info[i+1]` supplies the downsample info used on reallocation. -/
def run_stages_go (alloc_ok : Bool) (chunk_size : Nat)
    (channel_info : List (List ChannelInfo)) :
    Nat → List Stage → List ImageF → Nat × Nat → Except Failure (List ImageF)
  | _, [], current, _ => .ok current
  | i, stage :: rest, current, current_size => do
    let output ← clone_images alloc_ok current
    let (current_size', output') :=
      if stage.shift ≠ (0, 0) ∨ stage.new_size current_size ≠ current_size then
        let ns := stage.new_size current_size
        (ns, realloc_used_go stage ns 0 (channel_info.getD (i + 1) []) output)
      else (current_size, output)
    let input_buf := used_channels stage current
    let output_buf := used_channels stage output'
    let new_used := stage.run_stage_on chunk_size input_buf output_buf
    run_stages_go alloc_ok chunk_size channel_info (i + 1) rest
      (scatter_used stage output' new_used) current_size'

/-- Result of one internal render (`do_render`): the pipeline state after the
call, the returned `Result`, how many times the stage chain was executed, and
the final chained buffers when the chain ran to completion. -/
structure RenderResult where
  state : SimpleRenderPipeline
  res : Except Failure Unit
  chain_runs : Nat
  final_buffers : Option (List ImageF)

/-- `SimpleRenderPipeline::do_render` (lines 219-270). The ready-pass gate is
evaluated before any allocation; `completed_passes` is advanced before the
input buffers are cloned, so an allocation failure leaves it advanced. -/
def do_render (alloc_ok : Bool) (p : SimpleRenderPipeline) : RenderResult :=
  match list_min p.group_ready_passes with
  | none => ⟨p, .error (.fatal .emptyGroupList), 0, none⟩
  | some ready_passes =>
    if ready_passes ≤ p.completed_passes then ⟨p, .ok (), 0, none⟩
    else
      match clone_images alloc_ok p.input_buffers with
      | .error f => ⟨{ p with completed_passes := ready_passes }, .error f, 0, none⟩
      | .ok current =>
        match run_stages_go alloc_ok p.chunk_size p.channel_info 0 p.stages current
            p.input_size with
        | .ok final => ⟨{ p with completed_passes := ready_passes }, .ok (), 1, some final⟩
        | .error f => ⟨{ p with completed_passes := ready_passes }, .error f, 1, none⟩

/-! ## Runtime: `fill_input_two_types` -/

/-- Group offset and clipped group size as computed by
`fill_input_two_types` (lines 297-314): `group = (id % xgroups, id / xgroups)`,
`goffset = group << log_group_size`, and
`gsize = (min(W, (goffset.x + 1) << L) - goffset.x, min(H, (goffset.y + 1) << L) - goffset.y)`. -/
def group_offset_size (input_size : Nat × Nat) (log_group_size xgroups : Nat)
    (group_id : Nat) : (Nat × Nat) × (Nat × Nat) :=
  let group := (group_id % xgroups, group_id / xgroups)
  let goffset := (group.1 <<< log_group_size, group.2 <<< log_group_size)
  ((goffset.1, goffset.2),
   (min input_size.1 ((goffset.1 + 1) <<< log_group_size) - goffset.1,
    min input_size.2 ((goffset.2 + 1) <<< log_group_size) - goffset.2))

/-- Modelled from the spec: the clipped group size the specification states,
`gsize = (min(W, goffset.x + (1 << L)) - goffset.x, min(H, goffset.y + (1 << L)) - goffset.y)`. -/
def group_offset_size_spec (input_size : Nat × Nat) (log_group_size xgroups : Nat)
    (group_id : Nat) : (Nat × Nat) × (Nat × Nat) :=
  let group := (group_id % xgroups, group_id / xgroups)
  let goffset := (group.1 <<< log_group_size, group.2 <<< log_group_size)
  ((goffset.1, goffset.2),
   (min input_size.1 (goffset.1 + (1 <<< log_group_size)) - goffset.1,
    min input_size.2 (goffset.2 + (1 <<< log_group_size)) - goffset.2))

/-- Model of `GroupFillInfo` for the two-type fill: the fill callbacks receive
the freshly allocated per-type tile lists and either fail with a decoder error
or return the filled tiles (the `to_f64` conversion on copy-out is the
identity on the modelled sample values). -/
structure GroupFillInfo where
  group_id : Nat
  num_filled_passes : Nat
  fill_fn1 : List ImageF → Except Error (List ImageF)
  fill_fn2 : List ImageF → Except Error (List ImageF)

/-- The tile-allocation channel scan of `fill_input_two_types`
(lines 315-337): check the alignment asserts, then push a group-sized tile
into the bucket of the channel's type, recording in `ch_idx` the index of the
tile within its bucket. Channels of a type other than `t1`/`t2`, or with an
unresolved type, panic. -/
def alloc_group_tiles_go (t1 t2 : DataTypeTag) (goffset gsize : Nat × Nat)
    (acc1 acc2 : List ImageF) (accIdx : List Nat) :
    List ChannelInfo → Except Failure (List ImageF × List ImageF × List Nat)
  | [] => .ok (acc1, acc2, accIdx)
  | ci :: rest =>
    match ci.ty with
    | none => .error (.fatal .unknownChannelType)
    | some ty =>
      if goffset.1 % (1 <<< ci.downsample.1) ≠ 0 then .error (.fatal .misalignedGroup)
      else if goffset.2 % (1 <<< ci.downsample.2) ≠ 0 then .error (.fatal .misalignedGroup)
      else
        let tile := ImageF.new (shrc gsize.1 ci.downsample.1, shrc gsize.2 ci.downsample.2)
        if ty = t1 then
          alloc_group_tiles_go t1 t2 goffset gsize (acc1 ++ [tile]) acc2
            (accIdx ++ [acc1.length]) rest
        else if ty = t2 then
          alloc_group_tiles_go t1 t2 goffset gsize acc1 (acc2 ++ [tile])
            (accIdx ++ [acc2.length]) rest
        else .error (.fatal .unknownChannelType)

/-- Tile allocation for one group over all channels. -/
def alloc_group_tiles (t1 t2 : DataTypeTag) (goffset gsize : Nat × Nat)
    (row0 : List ChannelInfo) : Except Failure (List ImageF × List ImageF × List Nat) :=
  alloc_group_tiles_go t1 t2 goffset gsize [] [] [] row0

/-- The nested copy loops of `fill_input_two_types` (lines 352-356 and
359-364): copy `cnt` samples per row, `cnt.2` rows, from the tile into the
input buffer at offset `off`. -/
def copy_rect (buf tile : ImageF) (off cnt : Nat × Nat) : ImageF :=
  (List.range cnt.2).foldl
    (fun b y =>
      (List.range cnt.1).foldl
        (fun b' x => b'.set (y + off.2) (x + off.1) (tile.data y x)) b)
    buf

/-- Replace the buffer at index `i` by `f` of its current value
(`self.input_buffers[c] = ...`). -/
def modify_at (l : List ImageF) (i : Nat) (f : ImageF → ImageF) : List ImageF :=
  l.set i (f (l.getD i (ImageF.new (0, 0))))

/-- The copy-back channel loop of `fill_input_two_types` (lines 348-366):
for each channel, copy its filled tile into the input buffer at offset
`goffset >> downsample`, `shrc gsize downsample` samples per dimension. -/
def copy_channels_go (t1 t2 : DataTypeTag) (goffset gsize : Nat × Nat)
    (images1 images2 : List ImageF) (ch_idx : List Nat) :
    Nat → List ChannelInfo → List ImageF → List ImageF
  | _, [], bufs => bufs
  | c, ci :: rest, bufs =>
    let bufs' :=
      match ci.ty with
      | none => bufs
      | some ty =>
        let off := (goffset.1 >>> ci.downsample.1, goffset.2 >>> ci.downsample.2)
        let cnt := (shrc gsize.1 ci.downsample.1, shrc gsize.2 ci.downsample.2)
        if ty = t1 then
          modify_at bufs c
            (fun b => copy_rect b (images1.getD (ch_idx.getD c 0) (ImageF.new (0, 0))) off cnt)
        else if ty = t2 then
          modify_at bufs c
            (fun b => copy_rect b (images2.getD (ch_idx.getD c 0) (ImageF.new (0, 0))) off cnt)
        else bufs
    copy_channels_go t1 t2 goffset gsize images1 images2 ch_idx (c + 1) rest bufs'

/-- Invocation of one fill callback (lines 341-346): the callback runs only
when its bucket is nonempty; its error is lifted into the pipeline's result. -/
def run_fill_fn (f : List ImageF → Except Error (List ImageF)) (imgs : List ImageF) :
    Except Failure (List ImageF) :=
  if imgs.isEmpty then .ok imgs
  else
    match f imgs with
    | .ok l => .ok l
    | .error e => .error (.err e)

/-- Processing of a single `group_info` inside `fill_input_two_types`
(lines 290-367): compute the group geometry, allocate and bucket the tiles,
invoke the fill callbacks (each only when its bucket is nonempty; a callback
error aborts before any copy or pass increment), copy the tiles into the
input buffers, and increment the group's ready passes. -/
def fill_group (t1 t2 : DataTypeTag) (p : SimpleRenderPipeline) (gi : GroupFillInfo) :
    Except Failure SimpleRenderPipeline :=
  let og := group_offset_size p.input_size p.log_group_size p.xgroups gi.group_id
  let goffset := og.1
  let gsize := og.2
  let row0 := p.channel_info.headD []
  Except.bind (alloc_group_tiles t1 t2 goffset gsize row0) (fun tiles =>
  Except.bind (run_fill_fn gi.fill_fn1 tiles.1) (fun images1 =>
  Except.bind (run_fill_fn gi.fill_fn2 tiles.2.1) (fun images2 =>
  if gi.group_id < p.group_ready_passes.length then
    .ok { p with
          input_buffers :=
            copy_channels_go t1 t2 goffset gsize images1 images2 tiles.2.2 0 row0
              p.input_buffers
          group_ready_passes :=
            p.group_ready_passes.set gi.group_id
              (p.group_ready_passes.getD gi.group_id 0 + gi.num_filled_passes) }
  else
    .error (.fatal .groupIdOutOfRange))))

/-- The group loop of `fill_input_two_types`: on an error the already
processed groups keep their effects and later groups are not processed. -/
def fill_input_loop (t1 t2 : DataTypeTag) :
    SimpleRenderPipeline → List GroupFillInfo →
    SimpleRenderPipeline × Except Failure Unit
  | p, [] => (p, .ok ())
  | p, gi :: rest =>
    match fill_group t1 t2 p gi with
    | .error f => (p, .error f)
    | .ok p' => fill_input_loop t1 t2 p' rest

/-- `RenderPipeline::fill_input_two_types`: process every group, then run the
internal renderer. -/
def fill_input_two_types (t1 t2 : DataTypeTag) (alloc_ok : Bool)
    (p : SimpleRenderPipeline) (group_fill_info : List GroupFillInfo) : RenderResult :=
  match fill_input_loop t1 t2 p group_fill_info with
  | (p', .error f) => ⟨p', .error f, 0, none⟩
  | (p', .ok ()) => do_render alloc_ok p'

/-! ## The mirror rule of the InOut executor -/

/-- Loop measure for the coordinate-mirroring loop: the distance by which `v`
lies outside `[0, size)`. -/
def mirror_fuel (v size : Int) : Nat := (if v < 0 then -v else v - size + 1).toNat

/-- One iteration of the mirroring loop body (lines 510-515):
`if v < 0 { v = -v - 1 }` then `if v >= size { v = size + (size - v) - 1 }`. -/
def mirror_body (v size : Int) : Int :=
  let v1 := if v < 0 then -v - 1 else v
  if size ≤ v1 then size + (size - v1) - 1 else v1

/-- The `while v < 0 || v >= size` loop of `mirror` (lines 508-518), with an
explicit iteration budget. `mirror_fuel` iterations always suffice when
`0 < size` (proved below), so the budgeted loop coincides with the source
loop; for `size ≤ 0` the source loop diverges and the claims do not apply. -/
def mirror_go : Nat → Int → Int → Int
  | 0, v, _ => v
  | fuel + 1, v, size =>
    if v < 0 ∨ size ≤ v then mirror_go fuel (mirror_body v size) size else v

/-- The `mirror` closure of the InOut stage executor. -/
def mirror (v size : Int) : Int := mirror_go (mirror_fuel v size) v size

/-! ## Chunk enumeration of the Extend executor -/

/-- `(a..b).step_by(step)`: the chunk start positions. -/
def step_by_range (a b step : Nat) : List Nat :=
  (List.range ((b - a + step - 1) / step)).map (fun i => a + i * step)

/-- The `(y, x, xsize)` triples at which the Extend executor invokes
`process_row_chunk` for the rows above and below the original data
(lines 596-608). `xsize` is computed in `Int` to expose `usize` subtraction
underflow (which panics in Rust debug builds) as a negative value. -/
def extend_above_below_chunks (origin output_size input_size : Nat × Nat)
    (chunk_size : Nat) : List (Nat × Nat × Int) :=
  (List.range origin.2 ++ List.range' (origin.2 + input_size.2)
      (output_size.2 - (origin.2 + input_size.2))).flatMap
    (fun y => (step_by_range 0 output_size.1 chunk_size).map
      (fun x => (y, x, Int.ofNat (min output_size.1 (x + chunk_size)) - Int.ofNat x)))

/-- The `(y, x, xsize)` triples at which the Extend executor invokes
`process_row_chunk` left and right of the original data (lines 610-629): for
each row of the original data, the left flank iterates
`(0..output_size.0).step_by(chunk)` with width `min(origin.0, x+chunk) - x`,
then the right flank iterates `(origin.0+input_size.0..output_size.0)` with
width `min(output_size.0, x+chunk) - x`. -/
def extend_side_chunks (origin output_size input_size : Nat × Nat)
    (chunk_size : Nat) : List (Nat × Nat × Int) :=
  (List.range' origin.2 input_size.2).flatMap
    (fun y =>
      (step_by_range 0 output_size.1 chunk_size).map
        (fun x => (y, x, Int.ofNat (min origin.1 (x + chunk_size)) - Int.ofNat x))
      ++ (step_by_range (origin.1 + input_size.1) output_size.1 chunk_size).map
        (fun x => (y, x, Int.ofNat (min output_size.1 (x + chunk_size)) - Int.ofNat x)))

/-! ## Concrete instances used by counterexamples and witnesses -/

/-- Whether an `Except` is `ok` (the concrete success payloads below contain
functions, so success is observed through this projection). -/
def except_is_ok {ε α : Type} : Except ε α → Bool
  | .ok _ => true
  | .error _ => false

/-- Fallback pipeline for unreachable `match` arms of concrete definitions. -/
def junk_pipeline : SimpleRenderPipeline :=
  ⟨[], (0, 0), 0, 0, [], [], 0, [], 0⟩

/-- Fallback builder for unreachable `match` arms of concrete definitions. -/
def junk_builder : SimpleRenderPipelineBuilder := ⟨junk_pipeline, true⟩

/-- An Input stage with a given used channel and input type: the shape of
`SaveStage<T>` from `save.rs` (`uses_channel(c) = (c == channel)`, `Type =
RenderPipelineInputStage<T>`, so `SHIFT = (0,0)`, `new_size` the identity,
no output type change). Input stages write nothing, so `run_stage_on`
returns the output views unchanged. -/
def input_stage (channel : Nat) (ty : DataTypeTag) : Stage :=
  { uses_channel := fun c => c == channel
    input_type := ty
    output_type_const := none
    shift := (0, 0)
    stage_type := .Input
    new_size := fun s => s
    original_data_origin := (0, 0)
    run_stage_on := fun _ _ outs => outs }

/-- An InOut-shaped stage used only for its build-time metadata (used channel,
types, `SHIFT`); its runtime behaviour is irrelevant to the build claims. -/
def inout_stage (channel : Nat) (ty : DataTypeTag) (shift : Nat × Nat) : Stage :=
  { uses_channel := fun c => c == channel
    input_type := ty
    output_type_const := none
    shift := shift
    stage_type := .InOut
    new_size := fun s => (s.1 <<< shift.1, s.2 <<< shift.2)
    original_data_origin := (0, 0)
    run_stage_on := fun _ _ outs => outs }

/-- Builder of the 6-by-2, one-channel, `log_group_size = 1` pipeline with a
single `SaveStage<u8>`-shaped stage on channel 0. -/
def cex_builder : SimpleRenderPipelineBuilder :=
  match build_all 1 (6, 2) 1 [input_stage 0 .u8] with
  | .ok b => b
  | .error _ => junk_builder

/-- The built 6-by-2 pipeline (three groups along x, one along y). -/
def cex_pipeline : SimpleRenderPipeline :=
  match build cex_builder with
  | .ok p => p
  | .error _ => junk_pipeline

/-- Group-fill info writing the constant `v` into every sample of every tile
of the first bucket; the second bucket is left as allocated. -/
def const_fill (group_id v : Nat) : GroupFillInfo :=
  { group_id := group_id
    num_filled_passes := 1
    fill_fn1 := fun imgs => .ok (imgs.map (fun im => { im with data := fun _ _ => (v : Int) }))
    fill_fn2 := fun imgs => .ok imgs }

/-- Group-fill info whose first callback fails with decoder error `other 7`. -/
def failing_fill : GroupFillInfo :=
  { group_id := 0
    num_filled_passes := 1
    fill_fn1 := fun _ => .error (.other 7)
    fill_fn2 := fun imgs => .ok imgs }

/-- Two-channel builder whose stages use different channels with different
sample types: stage 0 uses channel 0 at `u8`, stage 1 uses channel 1 at
`f32`. Both `add_stage` calls succeed. -/
def two_type_builder : SimpleRenderPipelineBuilder :=
  match build_all 2 (4, 4) 2 [input_stage 0 .u8, input_stage 1 .f32] with
  | .ok b => b
  | .error _ => junk_builder

/-- Two-channel builder whose channel-1 shifts sum to 300 (> 255, overflowing
`u8` addition) while channel 0 carries `u8` through `f32` stages. -/
def overflow_builder : SimpleRenderPipelineBuilder :=
  match build_all 2 (4, 4) 2
      [input_stage 0 .u8, inout_stage 1 .f32 (200, 0), inout_stage 1 .f32 (100, 0)] with
  | .ok b => b
  | .error _ => junk_builder

/-- The 6-by-2 pipeline with one pass reported ready for each of its three
groups but no pass rendered yet. -/
def ready_pipeline : SimpleRenderPipeline :=
  { cex_pipeline with group_ready_passes := [1, 1, 1] }

/-! ## Lemmas about the mirror loop -/

/-- Each iteration of the mirroring loop strictly decreases the distance of
the coordinate from `[0, size)`, provided `0 < size` and the loop guard holds. -/
theorem mirror_body_fuel_lt (v size : Int) (hs : 0 < size) (hv : v < 0 ∨ size ≤ v) :
    mirror_fuel (mirror_body v size) size < mirror_fuel v size := by
  simp only [mirror_body, mirror_fuel]
  split_ifs <;> omega

/-- With at least `mirror_fuel v size` iterations available, the budgeted
mirror loop lands in `[0, size)`. -/
theorem mirror_go_range (size : Int) (hs : 0 < size) :
    ∀ (fuel : Nat) (v : Int), mirror_fuel v size ≤ fuel →
      0 ≤ mirror_go fuel v size ∧ mirror_go fuel v size < size := by
  intro fuel
  induction fuel with
  | zero =>
    intro v hv
    simp only [mirror_go]
    unfold mirror_fuel at hv
    split_ifs at hv <;> omega
  | succ n ih =>
    intro v hv
    simp only [mirror_go]
    split
    · next h =>
      exact ih (mirror_body v size) (by have := mirror_body_fuel_lt v size hs h; omega)
    · next h => omega

/-- Extra fuel beyond `mirror_fuel v size` does not change the result: the
budgeted loop computes the limit of the source's `while` loop. -/
theorem mirror_go_stable (size : Int) (hs : 0 < size) :
    ∀ (fuel k : Nat) (v : Int), mirror_fuel v size ≤ fuel →
      mirror_go (fuel + k) v size = mirror_go fuel v size := by
  intro fuel
  induction fuel with
  | zero =>
    intro k v hv
    have hv0 : ¬(v < 0 ∨ size ≤ v) := by
      unfold mirror_fuel at hv; split_ifs at hv <;> omega
    cases k with
    | zero => rfl
    | succ j =>
      show mirror_go (0 + (j + 1)) v size = v
      rw [Nat.zero_add]
      simp only [mirror_go]
      rw [if_neg hv0]
  | succ n ih =>
    intro k v hv
    show mirror_go (n + 1 + k) v size = mirror_go (n + 1) v size
    rw [show n + 1 + k = (n + k) + 1 from by omega]
    simp only [mirror_go]
    split
    · next h =>
      exact ih k (mirror_body v size) (by have := mirror_body_fuel_lt v size hs h; omega)
    · rfl

/-! ## Claim theorems -/

/-- Claim C5 (confirmed): for every `v` and axis length `size > 0` the
iterative mirror rule terminates (any extra iteration budget beyond
`mirror_fuel` leaves the result unchanged) and returns a value in
`[0, size)`; it is the identity on `[0, size)`; and for `size = 4` the probe
inputs map to the expected outputs. -/
theorem c5_mirror_rule :
    (∀ v size : Int, 0 < size →
       (∀ k : Nat, mirror_go (mirror_fuel v size + k) v size = mirror v size) ∧
       0 ≤ mirror v size ∧ mirror v size < size) ∧
    (∀ v size : Int, 0 < size → 0 ≤ v → v < size → mirror v size = v) ∧
    (mirror (-1) 4 = 0 ∧ mirror (-2) 4 = 1 ∧ mirror (-3) 4 = 2 ∧ mirror (-4) 4 = 3 ∧
     mirror (-5) 4 = 3 ∧ mirror 0 4 = 0 ∧ mirror 1 4 = 1 ∧ mirror 2 4 = 2 ∧
     mirror 3 4 = 3 ∧ mirror 4 4 = 3 ∧ mirror 5 4 = 2 ∧ mirror 6 4 = 1 ∧
     mirror 7 4 = 0) := by
  refine ⟨?_, ?_, by decide⟩
  · intro v size hs
    exact ⟨fun k => mirror_go_stable size hs (mirror_fuel v size) k v le_rfl,
           (mirror_go_range size hs (mirror_fuel v size) v le_rfl).1,
           (mirror_go_range size hs (mirror_fuel v size) v le_rfl).2⟩
  · intro v size _ h0 h1
    unfold mirror
    rw [show mirror_fuel v size = 0 from by unfold mirror_fuel; split_ifs <;> omega]
    rfl

/-- Witness for C5 at concrete inputs. -/
theorem c5_mirror_rule_witness :
    (0 ≤ mirror (-7) 4 ∧ mirror (-7) 4 < 4) ∧ mirror 2 4 = 2 :=
  ⟨⟨(c5_mirror_rule.1 (-7) 4 (by decide)).2.1, (c5_mirror_rule.1 (-7) 4 (by decide)).2.2⟩,
   c5_mirror_rule.2.1 2 4 (by decide) (by decide) (by decide)⟩

/-- Claim C1 (code bug): `fill_input_two_types` computes the clipped group
size with `min(W, (goffset.x + 1) << L)` instead of the claimed
`min(W, goffset.x + (1 << L))`. For the built 6-by-2 pipeline with
`log_group_size = 1` (so `xgroups = 3`), group 1 gets size `(4, 2)` from the
code, while the claimed formula gives `(2, 2)`. -/
theorem c1_gsize_mismatch :
    cex_pipeline.input_size = (6, 2) ∧ cex_pipeline.log_group_size = 1 ∧
    cex_pipeline.xgroups = 3 ∧
    group_offset_size (6, 2) 1 3 1 = ((2, 0), (4, 2)) ∧
    group_offset_size_spec (6, 2) 1 3 1 = ((2, 0), (2, 2)) ∧
    (group_offset_size (6, 2) 1 3 1).2 ≠ (group_offset_size_spec (6, 2) 1 3 1).2 := by
  refine ⟨rfl, rfl, rfl, by decide, by decide, by decide⟩

/-- Claim C2 (code bug): with the oversized group rectangles of C1, groups 1
and 2 of the built 6-by-2 pipeline write overlapping rectangles of the input
buffer (columns 2..6 and 4..6 of both rows), so delivering the same two
groups with fixed fill data (all-1 for group 1, all-2 for group 2) in the two
orders leaves different contents at column 4 of row 0. -/
theorem c2_order_dependent :
    (fill_input_two_types .u8 .f32 true cex_pipeline
        [const_fill 1 1, const_fill 2 2]).res = .ok () ∧
    (fill_input_two_types .u8 .f32 true cex_pipeline
        [const_fill 2 2, const_fill 1 1]).res = .ok () ∧
    ((fill_input_two_types .u8 .f32 true cex_pipeline
        [const_fill 1 1, const_fill 2 2]).state.input_buffers.getD 0
        (ImageF.new (0, 0))).data 0 4 = 2 ∧
    ((fill_input_two_types .u8 .f32 true cex_pipeline
        [const_fill 2 2, const_fill 1 1]).state.input_buffers.getD 0
        (ImageF.new (0, 0))).data 0 4 = 1 := by
  exact ⟨rfl, rfl, by decide, by decide⟩

/-- Claim C3 (code bug): the reverse sweep of `build` routes a channel that
the stage does not use into the agreement-assert branch whenever its type is
already known (`cur_chan.ty.is_none() && !stage.uses_channel(chan)` fails),
so a pipeline whose two stages use different channels with different sample
types — accepted by `add_stage` — panics in `build` on
`assert_eq!(Some(stage.output_type()), next_chan.ty)`. -/
theorem c3_build_assert_panics :
    except_is_ok (build_all 2 (4, 4) 2 [input_stage 0 .u8, input_stage 1 .f32]) = true ∧
    build two_type_builder = .error (.fatal .buildTypeAssert) :=
  ⟨rfl, rfl⟩

/-- Claim C4 (code bug): the left-flank loop of the Extend executor iterates
`x` over `(0..output_size.0).step_by(chunk)` instead of `(0..origin.0)`, so
with chunk size 1, origin `(1,1)`, input `2x2`, output `4x4` the chunk at
`y = 1, x = 2` has width `min(origin.0, x + chunk) - x = 1 - 2`, a `usize`
subtraction underflow (modelled as the negative width `-1`). -/
theorem c4_extend_underflow :
    (1, 2, (-1 : Int)) ∈ extend_side_chunks (1, 1) (4, 4) (2, 2) 1 := by decide

/-- Counterexample for claim C6 as stated: a stage list accepted by
`add_stage` whose channel-1 shift sum is 300 (overflowing `u8` addition), yet
`build` does not return `ArithmeticOverflow`: the (buggy, see C3) type
assertion fires first for channel 0 at the last stage, so `build` panics. -/
theorem c6_overflow_preempted :
    except_is_ok (build_all 2 (4, 4) 2
        [input_stage 0 .u8, inout_stage 1 .f32 (200, 0), inout_stage 1 .f32 (100, 0)]) = true ∧
    255 < (total_shift
        [input_stage 0 .u8, inout_stage 1 .f32 (200, 0), inout_stage 1 .f32 (100, 0)] 1).1 ∧
    build overflow_builder = .error (.fatal .buildTypeAssert) ∧
    build overflow_builder ≠ .error (.err .arithmeticOverflow) := by
  refine ⟨rfl, by decide, rfl, fun h => ?_⟩
  have h3 : (Except.error (Failure.err .arithmeticOverflow) :
      Except Failure SimpleRenderPipeline) = .error (.fatal .buildTypeAssert) :=
    h.symm.trans (rfl : build overflow_builder = .error (.fatal .buildTypeAssert))
  injection h3 with h4
  exact absurd h4 (by decide)

/-! ## Lemmas about the runtime -/

/-- With all allocations succeeding, the stage loop of `do_render` runs to
completion on any stage list. -/
theorem run_stages_go_ok (chunk : Nat) (ci : List (List ChannelInfo)) :
    ∀ (stages : List Stage) (i : Nat) (current : List ImageF) (sz : Nat × Nat),
      ∃ out, run_stages_go true chunk ci i stages current sz = .ok out := by
  intro stages
  induction stages with
  | nil => intro i current sz; exact ⟨current, rfl⟩
  | cons stage rest ih =>
    intro i current sz
    simp only [run_stages_go]
    exact ih (i + 1) _ _

/-- `Except.bind` succeeds exactly when both steps succeed. -/
theorem except_bind_ok {α β : Type} (e : Except Failure α) (f : α → Except Failure β)
    (b : β) (h : Except.bind e f = .ok b) : ∃ a, e = .ok a ∧ f a = .ok b := by
  cases e with
  | error f' => exact (Except.noConfusion h)
  | ok a => exact ⟨a, rfl, h⟩

/-- `fill_group` never changes `completed_passes`. -/
theorem fill_group_completed (t1 t2 : DataTypeTag) (p : SimpleRenderPipeline)
    (gi : GroupFillInfo) (p' : SimpleRenderPipeline)
    (h : fill_group t1 t2 p gi = .ok p') :
    p'.completed_passes = p.completed_passes := by
  unfold fill_group at h
  obtain ⟨tiles, -, h⟩ := except_bind_ok _ _ _ h
  obtain ⟨i1, -, h⟩ := except_bind_ok _ _ _ h
  obtain ⟨i2, -, h⟩ := except_bind_ok _ _ _ h
  split at h
  · cases h; rfl
  · exact (Except.noConfusion h)

/-- The group loop of `fill_input_two_types` never changes `completed_passes`
when it succeeds. -/
theorem fill_loop_completed (t1 t2 : DataTypeTag) :
    ∀ (gis : List GroupFillInfo) (p p' : SimpleRenderPipeline),
      fill_input_loop t1 t2 p gis = (p', .ok ()) →
      p'.completed_passes = p.completed_passes := by
  intro gis
  induction gis with
  | nil =>
    intro p p' h
    have : p = p' := congrArg Prod.fst h
    rw [← this]
  | cons gi rest ih =>
    intro p p' h
    cases heq : fill_group t1 t2 p gi with
    | error f =>
      simp only [fill_input_loop, heq] at h
      exact absurd (congrArg Prod.snd h) (by simp)
    | ok p2 =>
      simp only [fill_input_loop, heq] at h
      exact (ih p2 p' h).trans (fill_group_completed t1 t2 p gi p2 heq)

/-- Appending to the group list: if the prefix succeeds, the loop continues
from the prefix's final state. -/
theorem fill_loop_append_ok (t1 t2 : DataTypeTag) :
    ∀ (pre : List GroupFillInfo) (p p' : SimpleRenderPipeline) (rest : List GroupFillInfo),
      fill_input_loop t1 t2 p pre = (p', .ok ()) →
      fill_input_loop t1 t2 p (pre ++ rest) = fill_input_loop t1 t2 p' rest := by
  intro pre
  induction pre with
  | nil =>
    intro p p' rest h
    have : p = p' := congrArg Prod.fst h
    rw [List.nil_append, this]
  | cons gi pr ih =>
    intro p p' rest h
    rw [List.cons_append]
    cases heq : fill_group t1 t2 p gi with
    | error f =>
      simp only [fill_input_loop, heq] at h
      exact absurd (congrArg Prod.snd h) (by simp)
    | ok p2 =>
      simp only [fill_input_loop, heq] at h ⊢
      exact ih p2 p' rest h

/-! ## Claims C7-C10 -/

/-- Claim C7 (confirmed): writing `m` for the minimum of the per-group ready
passes, every internal render with `m ≤ completed_passes` returns immediately
with the state unchanged and the stage chain not executed; otherwise (with
allocations succeeding) the stage chain executes exactly once and
`completed_passes` becomes `m`. -/
theorem c7_render_gate (p : SimpleRenderPipeline) (m : Nat)
    (hm : list_min p.group_ready_passes = some m) :
    (∀ alloc_ok, m ≤ p.completed_passes →
       do_render alloc_ok p = ⟨p, .ok (), 0, none⟩) ∧
    (p.completed_passes < m →
       (do_render true p).chain_runs = 1 ∧
       (do_render true p).state.completed_passes = m ∧
       (do_render true p).res = .ok ()) := by
  constructor
  · intro a hle
    unfold do_render
    simp only [hm]
    rw [if_pos hle]
  · intro hlt
    unfold do_render
    simp only [hm]
    rw [if_neg (by omega)]
    simp only [show clone_images true p.input_buffers = .ok p.input_buffers from rfl]
    obtain ⟨out, hout⟩ :=
      run_stages_go_ok p.chunk_size p.channel_info p.stages 0 p.input_buffers p.input_size
    simp [hout]

/-- Witness for C7: the built 6-by-2 pipeline before any ready pass returns
unchanged; with one ready pass per group the chain runs once and the
completed-pass counter advances to 1. -/
theorem c7_render_gate_witness :
    do_render false cex_pipeline = ⟨cex_pipeline, .ok (), 0, none⟩ ∧
    (do_render true ready_pipeline).chain_runs = 1 ∧
    (do_render true ready_pipeline).state.completed_passes = 1 :=
  ⟨(c7_render_gate cex_pipeline 0 rfl).1 false (by decide),
   ((c7_render_gate ready_pipeline 1 rfl).2 (by decide)).1,
   ((c7_render_gate ready_pipeline 1 rfl).2 (by decide)).2.1⟩

/-- Claim C8 (confirmed): the internal render never modifies the stored
per-channel input buffers — the stage chain is seeded from a (deep-copied)
clone and all stage writes go to per-render buffers. -/
theorem c8_render_preserves_input (alloc_ok : Bool) (p : SimpleRenderPipeline) :
    (do_render alloc_ok p).state.input_buffers = p.input_buffers := by
  unfold do_render
  split
  · rfl
  · split
    · rfl
    · split
      · rfl
      · split <;> rfl

/-- Claim C10 (confirmed): `do_render` advances `completed_passes` to the
ready-pass minimum before cloning; if cloning then fails with `OutOfMemory`
the counter stays advanced, so any later `fill_input` whose groups bring no
pass beyond `m` finds `ready ≤ completed_passes` and does not run the chain. -/
theorem c10_failed_render (p : SimpleRenderPipeline) (m : Nat)
    (hm : list_min p.group_ready_passes = some m) (hlt : p.completed_passes < m) :
    (do_render false p).state = { p with completed_passes := m } ∧
    (do_render false p).res = .error (.err .outOfMemory) ∧
    (do_render false p).chain_runs = 0 ∧
    (∀ (t1 t2 : DataTypeTag) (alloc_ok : Bool) (gis : List GroupFillInfo)
       (p'' : SimpleRenderPipeline),
       fill_input_loop t1 t2 (do_render false p).state gis = (p'', .ok ()) →
       (∀ r, list_min p''.group_ready_passes = some r → r ≤ m) →
       (fill_input_two_types t1 t2 alloc_ok (do_render false p).state gis).chain_runs = 0) := by
  have hdr : do_render false p =
      ⟨{ p with completed_passes := m }, .error (.err .outOfMemory), 0, none⟩ := by
    unfold do_render
    simp only [hm]
    rw [if_neg (by omega)]
    rfl
  refine ⟨by rw [hdr], by rw [hdr], by rw [hdr], ?_⟩
  intro t1 t2 a gis p'' hloop hmin
  unfold fill_input_two_types
  rw [hloop]
  have hc : p''.completed_passes = m := by
    have h2 := fill_loop_completed t1 t2 gis (do_render false p).state p'' hloop
    rw [hdr] at h2
    exact h2
  show (do_render a p'').chain_runs = 0
  unfold do_render
  cases hr : list_min p''.group_ready_passes with
  | none => simp only [hr]
  | some r =>
    simp only [hr]
    rw [if_pos (show r ≤ p''.completed_passes by have := hmin r hr; omega)]

/-- Witness for C10: on the 6-by-2 pipeline with one ready pass per group, a
render with failing allocation returns `OutOfMemory` with the counter
advanced to 1, and a subsequent `fill_input` with no new groups does not run
the chain. -/
theorem c10_failed_render_witness :
    (do_render false ready_pipeline).res = .error (.err .outOfMemory) ∧
    (do_render false ready_pipeline).state.completed_passes = 1 ∧
    (fill_input_two_types .u8 .f32 true (do_render false ready_pipeline).state
        []).chain_runs = 0 := by
  have h := c10_failed_render ready_pipeline 1 rfl (by decide)
  refine ⟨h.2.1, by rw [h.1], ?_⟩
  refine h.2.2.2 .u8 .f32 true [] (do_render false ready_pipeline).state rfl ?_
  intro r hr
  have h1 := (rfl :
    list_min (do_render false ready_pipeline).state.group_ready_passes = some 1).symm.trans hr
  have h2 : (1 : Nat) = r := Option.some.inj h1
  omega

/-- Claim C9 (confirmed): if the fill callback of some group fails with error
`e` (all earlier groups in the call having succeeded, reaching state `st'`),
then `fill_input_two_types` returns exactly `e`, the state is `st'` — i.e.
the failing group contributed no buffer writes and no ready-pass increment —
and later groups are not processed nor is the renderer invoked. A subsequent
call therefore starts from `st'`, exactly as if the failing call had never
happened. -/
theorem c9_fill_error (t1 t2 : DataTypeTag) (alloc_ok : Bool)
    (p st' : SimpleRenderPipeline) (pre post : List GroupFillInfo) (gi : GroupFillInfo)
    (e : Error)
    (hpre : fill_input_loop t1 t2 p pre = (st', .ok ()))
    (hgi : fill_group t1 t2 st' gi = .error (.err e)) :
    fill_input_two_types t1 t2 alloc_ok p (pre ++ gi :: post) =
      ⟨st', .error (.err e), 0, none⟩ := by
  unfold fill_input_two_types
  rw [fill_loop_append_ok t1 t2 pre p st' (gi :: post) hpre]
  have hl : fill_input_loop t1 t2 st' (gi :: post) = (st', .error (.err e)) := by
    simp only [fill_input_loop, hgi]
  rw [hl]

/-- Witness for C9: a failing fill callback on the 6-by-2 pipeline surfaces
its error `other 7` unchanged and leaves the pipeline state untouched. -/
theorem c9_fill_error_witness :
    fill_input_two_types .u8 .f32 true cex_pipeline [failing_fill] =
      ⟨cex_pipeline, .error (.err (.other 7)), 0, none⟩ :=
  c9_fill_error .u8 .f32 true cex_pipeline cex_pipeline [] [] failing_fill (.other 7)
    rfl rfl

/-! ## Lemmas for claim C6: build-time downsample accumulation -/

theorem except_map_ok {α β : Type} (f : α → β) (e : Except Failure α) (b : β)
    (h : Except.map f e = .ok b) : ∃ a, e = .ok a ∧ f a = b := by
  cases e with
  | error f' => exact (Except.noConfusion h)
  | ok a => exact ⟨a, rfl, Except.ok.inj h⟩

theorem except_bind_err {α β : Type} (e : Except Failure α) (f : α → Except Failure β)
    (c : Failure) (h : Except.bind e f = .error c) :
    e = .error c ∨ ∃ a, e = .ok a ∧ f a = .error c := by
  cases e with
  | error f' =>
    left
    have hf : f' = c := Except.error.inj h
    rw [hf]
  | ok a => right; exact ⟨a, rfl, h⟩

theorem headD_eq_getD {α : Type} (l : List α) (d : α) : l.headD d = l.getD 0 d := by
  cases l <;> rfl

theorem get?_eq_some_getD {α : Type} (l : List α) (d : α) (i : Nat) (h : i < l.length) :
    l.get? i = some (l.getD i d) := by
  rw [List.getD_eq_getElem l d h, List.get?_eq_getElem?]
  exact List.getElem?_eq_getElem h

theorem getD_replicate' {α : Type} (d : α) : ∀ (n k : Nat),
    (List.replicate n d).getD k d = d := by
  intro n
  induction n with
  | zero => intro k; rfl
  | succ m ih =>
    intro k
    cases k with
    | zero => rw [List.replicate_succ, List.getD_cons_zero]
    | succ j => rw [List.replicate_succ, List.getD_cons_succ]; exact ih j

theorem getD_set_row0_ds (l1 : List ChannelInfo) (l2 : List (Nat × Nat)) :
    ∀ i, i < l1.length → i < l2.length →
      (set_row0_ds l1 l2).getD i default_ci =
        { l1.getD i default_ci with downsample := l2.getD i (0, 0) } := by
  induction l1 generalizing l2 with
  | nil => intro i h1 _; exact absurd h1 (by simp)
  | cons a t ih =>
    intro i h1 h2
    cases l2 with
    | nil => exact absurd h2 (by simp)
    | cons b u =>
      cases i with
      | zero =>
        rw [show set_row0_ds (a :: t) (b :: u) =
          { a with downsample := b } :: set_row0_ds t u from rfl]
        rw [List.getD_cons_zero, List.getD_cons_zero, List.getD_cons_zero]
      | succ j =>
        rw [show set_row0_ds (a :: t) (b :: u) =
          { a with downsample := b } :: set_row0_ds t u from rfl]
        rw [List.getD_cons_succ, List.getD_cons_succ, List.getD_cons_succ]
        exact ih u j (by simpa using h1) (by simpa using h2)

theorem total_shift_nil (c : Nat) : total_shift [] c = (0, 0) := rfl

theorem total_shift_cons (st : Stage) (sts : List Stage) (c : Nat) :
    total_shift (st :: sts) c =
      (if st.uses_channel c then
        ((st.shift.1 + (total_shift sts c).1, st.shift.2 + (total_shift sts c).2) : Nat × Nat)
      else total_shift sts c) := rfl

theorem getLast_getD_mem {α : Type} : ∀ (l : List α) (d : α), l ≠ [] →
    l.getLast?.getD d ∈ l := by
  intro l
  induction l with
  | nil => intro d h; exact absurd rfl h
  | cons a t ih =>
    intro d h
    cases t with
    | nil => simp
    | cons b u =>
      rw [List.getLast?_cons_cons]
      exact List.mem_cons_of_mem a (ih d (by simp))

/-- Length and per-channel downsample of the row `add_stage` appends: `SHIFT`
for used channels, `(0,0)` otherwise. -/
theorem after_info_loop_spec (stage : Stage) :
    ∀ (l : List ChannelInfo) (c0 : Nat) (out : List ChannelInfo),
      after_info_loop stage c0 l = .ok out →
      out.length = l.length ∧
      ∀ i, i < l.length →
        (out.getD i default_ci).downsample =
          (if stage.uses_channel (c0 + i) then stage.shift else (0, 0)) := by
  intro l
  induction l with
  | nil =>
    intro c0 out h
    have h0 : ([] : List ChannelInfo) = out := Except.ok.inj h
    subst h0
    exact ⟨rfl, fun i hi => absurd hi (by simp)⟩
  | cons info rest ih =>
    intro c0 out h
    simp only [after_info_loop] at h
    by_cases huse : stage.uses_channel c0 = false
    · rw [if_pos huse] at h
      obtain ⟨out', hrec, hcons⟩ := except_map_ok _ _ _ h
      obtain ⟨hl, hp⟩ := ih (c0 + 1) out' hrec
      subst hcons
      refine ⟨by simp [hl], ?_⟩
      intro i hi
      cases i with
      | zero => simp [huse]
      | succ j =>
        rw [List.getD_cons_succ, show c0 + (j + 1) = (c0 + 1) + j from by omega]
        exact hp j (by simpa using hi)
    · rw [if_neg huse] at h
      have huse' : stage.uses_channel c0 = true := by simpa using huse
      cases hty : info.ty with
      | some ty =>
        simp only [hty] at h
        split at h
        · exact (Except.noConfusion h)
        · obtain ⟨out', hrec, hcons⟩ := except_map_ok _ _ _ h
          obtain ⟨hl, hp⟩ := ih (c0 + 1) out' hrec
          subst hcons
          refine ⟨by simp [hl], ?_⟩
          intro i hi
          cases i with
          | zero => simp [huse']
          | succ j =>
            rw [List.getD_cons_succ, show c0 + (j + 1) = (c0 + 1) + j from by omega]
            exact hp j (by simpa using hi)
      | none =>
        simp only [hty] at h
        obtain ⟨out', hrec, hcons⟩ := except_map_ok _ _ _ h
        obtain ⟨hl, hp⟩ := ih (c0 + 1) out' hrec
        subst hcons
        refine ⟨by simp [hl], ?_⟩
        intro i hi
        cases i with
        | zero => simp [huse']
        | succ j =>
          rw [List.getD_cons_succ, show c0 + (j + 1) = (c0 + 1) + j from by omega]
          exact hp j (by simpa using hi)

/-- Effect of a successful `add_stage` on the builder. -/
theorem add_stage_spec (b b' : SimpleRenderPipelineBuilder) (st : Stage)
    (h : add_stage b st = .ok b') :
    ∃ after,
      b'.pipeline.channel_info = b.pipeline.channel_info ++ [after] ∧
      b'.pipeline.stages = b.pipeline.stages ++ [st] ∧
      b'.pipeline.input_size = b.pipeline.input_size ∧
      after.length = (b.pipeline.channel_info.getLast?.getD []).length ∧
      (∀ i, i < after.length →
        (after.getD i default_ci).downsample =
          (if st.uses_channel i then st.shift else (0, 0))) := by
  unfold add_stage at h
  obtain ⟨after, hrec, h⟩ := except_bind_ok _ _ _ h
  split at h
  · exact (Except.noConfusion h)
  · cases h
    obtain ⟨hl, hp⟩ := after_info_loop_spec st _ 0 after hrec
    refine ⟨after, rfl, rfl, rfl, hl, ?_⟩
    intro i hi
    have := hp i (by omega)
    simpa using this

/-- A fresh builder satisfies the shape invariant. -/
theorem builder_inv_new (numc : Nat) (size : Nat × Nat) (log : Nat) :
    BuilderInv numc size (builder_new numc size log) := by
  refine ⟨rfl, rfl, ?_, ?_⟩
  · intro r hr
    simp only [builder_new, new_with_chunk_size, List.mem_singleton] at hr
    subst hr
    exact List.length_replicate _ _
  · intro s c hs _
    simp only [builder_new, new_with_chunk_size, List.length_nil] at hs
    omega

/-- `add_stage` preserves the shape invariant. -/
theorem builder_inv_add (numc : Nat) (size : Nat × Nat)
    (b b' : SimpleRenderPipelineBuilder) (st : Stage)
    (hb : BuilderInv numc size b) (h : add_stage b st = .ok b') :
    BuilderInv numc size b' := by
  obtain ⟨hsz, hlen, hrows, hcontrib⟩ := hb
  obtain ⟨after, hci, hst, hs2, halen, hads⟩ := add_stage_spec b b' st h
  have hne : b.pipeline.channel_info ≠ [] := by
    intro hn
    rw [hn] at hlen
    simp at hlen
  have hafter_len : after.length = numc := by
    rw [halen]
    exact hrows _ (getLast_getD_mem _ _ hne)
  refine ⟨hs2.trans hsz, ?_, ?_, ?_⟩
  · rw [hci, hst]
    simp only [List.length_append, List.length_cons, List.length_nil]
    omega
  · intro r hr
    rw [hci] at hr
    rcases List.mem_append.mp hr with hr | hr
    · exact hrows r hr
    · rw [List.mem_singleton.mp hr]
      exact hafter_len
  · intro s c hs hc
    rw [hst] at hs
    simp only [List.length_append, List.length_cons, List.length_nil] at hs
    rw [hci, hst]
    by_cases hcase : s < b.pipeline.stages.length
    · rw [List.getD_append _ _ _ _ (by rw [hlen]; omega),
          List.getD_append _ _ _ _ hcase]
      exact hcontrib s c hcase hc
    · have hse : s = b.pipeline.stages.length := by omega
      rw [List.getD_append_right _ _ _ _ (by rw [hlen]; omega),
          List.getD_append_right _ _ _ _ (by omega)]
      rw [hse, hlen]
      simp only [Nat.add_sub_cancel_left, Nat.sub_self]
      rw [List.getD_cons_zero, List.getD_cons_zero]
      exact hads c (by omega)

/-- Folding `add_stage` from a builder satisfying the invariant yields a
builder satisfying the invariant whose stages are the appended list. -/
theorem build_all_inv :
    ∀ (stages : List Stage) (numc : Nat) (size : Nat × Nat)
      (b0 b : SimpleRenderPipelineBuilder),
      BuilderInv numc size b0 →
      List.foldlM add_stage b0 stages = .ok b →
      BuilderInv numc size b ∧ b.pipeline.stages = b0.pipeline.stages ++ stages := by
  intro stages
  induction stages with
  | nil =>
    intro numc size b0 b hb h
    have h0 : b0 = b := Except.ok.inj h
    subst h0
    exact ⟨hb, by simp⟩
  | cons st rest ih =>
    intro numc size b0 b hb h
    rw [List.foldlM_cons] at h
    cases hst : add_stage b0 st with
    | error f =>
      rw [hst] at h
      exact (Except.noConfusion h)
    | ok b1 =>
      rw [hst] at h
      have h2 : List.foldlM add_stage b1 rest = .ok b := h
      obtain ⟨hinv, hstk⟩ := ih numc size b1 b (builder_inv_add numc size b0 b1 st hb hst) h2
      obtain ⟨after, hci2, hstg, -⟩ := add_stage_spec b0 b1 st hst
      refine ⟨hinv, ?_⟩
      rw [hstk, hstg]
      simp

/-- Success characterisation of one sweep iteration over the channels: the
current row's downsamples are untouched, and every new running total is the
old total plus the next row's recorded downsample, each component staying
within `u8` range. -/
theorem sweep_chans_ok (stage : Stage) :
    ∀ (cur next : List ChannelInfo) (d : List (Nat × Nat)) (c0 : Nat)
      (res : List ChannelInfo × List ChannelInfo × List (Nat × Nat)),
      sweep_chans stage c0 cur next d = .ok res →
      res.1.length = cur.length ∧
      res.2.2.length = d.length ∧
      (∀ i, (res.1.getD i default_ci).downsample = (cur.getD i default_ci).downsample) ∧
      (∀ i, i < d.length →
        res.2.2.getD i (0, 0) =
          ((d.getD i (0, 0)).1 + (next.getD i default_ci).downsample.1,
           (d.getD i (0, 0)).2 + (next.getD i default_ci).downsample.2) ∧
        (res.2.2.getD i (0, 0)).1 ≤ 255 ∧ (res.2.2.getD i (0, 0)).2 ≤ 255) := by
  intro cur
  induction cur with
  | nil =>
    intro next d c0 res h
    cases next with
    | nil =>
      cases d with
      | nil =>
        cases h
        exact ⟨rfl, rfl, fun i => rfl, fun i hi => absurd hi (by simp)⟩
      | cons dd dr => exact (Except.noConfusion h)
    | cons n nr =>
      cases d with
      | nil => exact (Except.noConfusion h)
      | cons dd dr => exact (Except.noConfusion h)
  | cons c cr ih =>
    intro next d c0 res h
    cases next with
    | nil =>
      cases d with
      | nil => exact (Except.noConfusion h)
      | cons dd dr => exact (Except.noConfusion h)
    | cons n nr =>
      cases d with
      | nil => exact (Except.noConfusion h)
      | cons dd dr =>
        simp only [sweep_chans] at h
        obtain ⟨newTy, hty, h⟩ := except_bind_ok _ _ _ h
        obtain ⟨nd, hds, h⟩ := except_bind_ok _ _ _ h
        obtain ⟨rest, hrec, h⟩ := except_bind_ok _ _ _ h
        cases h
        obtain ⟨hl1, hl2, hpres, hvals⟩ := ih nr dr (c0 + 1) rest hrec
        have hnd : nd = (dd.1 + n.downsample.1, dd.2 + n.downsample.2) ∧
            nd.1 ≤ 255 ∧ nd.2 ≤ 255 := by
          unfold chan_ds_step at hds
          split_ifs at hds with h1 h2
          all_goals first
            | exact (Except.noConfusion hds)
            | (cases hds; exact ⟨rfl, by omega, by omega⟩)
        refine ⟨by simp [hl1], by simp [hl2], ?_, ?_⟩
        · intro i
          cases i with
          | zero => rw [List.getD_cons_zero, List.getD_cons_zero]
          | succ j =>
            rw [List.getD_cons_succ, List.getD_cons_succ]
            exact hpres j
        · intro i hi
          cases i with
          | zero =>
            rw [List.getD_cons_zero, List.getD_cons_zero, List.getD_cons_zero]
            exact ⟨hnd.1, hnd.2.1, hnd.2.2⟩
          | succ j =>
            rw [List.getD_cons_succ, List.getD_cons_succ, List.getD_cons_succ]
            exact hvals j (by simpa using hi)

/-- On rows of equal length, a sweep iteration can fail only on the type
assertion or on `u8` overflow, never on the malformed-shape fallback. -/
theorem sweep_chans_err (stage : Stage) :
    ∀ (cur next : List ChannelInfo) (d : List (Nat × Nat)) (c0 : Nat) (f : Failure),
      cur.length = next.length → next.length = d.length →
      sweep_chans stage c0 cur next d = .error f →
      f = .fatal .buildTypeAssert ∨ f = .err .arithmeticOverflow := by
  intro cur
  induction cur with
  | nil =>
    intro next d c0 f h1 h2 h
    cases next with
    | nil =>
      cases d with
      | nil => exact (Except.noConfusion h)
      | cons dd dr => simp at h2
    | cons n nr => simp at h1
  | cons c cr ih =>
    intro next d c0 f h1 h2 h
    cases next with
    | nil => simp at h1
    | cons n nr =>
      cases d with
      | nil => simp at h2
      | cons dd dr =>
        simp only [sweep_chans] at h
        cases hty : chan_ty_step stage c0 c n with
        | error f1 =>
          rw [hty] at h
          have hf : f1 = f := Except.error.inj h
          left
          rw [← hf]
          unfold chan_ty_step at hty
          split_ifs at hty
          all_goals first
            | exact (Except.noConfusion hty)
            | exact (Except.error.inj hty).symm
        | ok newTy =>
          rw [hty] at h
          cases hds : chan_ds_step dd n.downsample with
          | error f2 =>
            rw [hds] at h
            have hf : f2 = f := Except.error.inj h
            right
            rw [← hf]
            unfold chan_ds_step at hds
            split_ifs at hds
            all_goals first
              | exact (Except.noConfusion hds)
              | exact (Except.error.inj hds).symm
          | ok nd =>
            rw [hds] at h
            cases hrec : sweep_chans stage (c0 + 1) cr nr dr with
            | error f3 =>
              rw [hrec] at h
              have hf : f3 = f := Except.error.inj h
              rw [← hf]
              exact ih nr dr (c0 + 1) f3 (by simpa using h1) (by simpa using h2) hrec
            | ok rest =>
              rw [hrec] at h
              exact (Except.noConfusion h)

/-- The reverse sweep on well-shaped rows: on success the running totals are
exactly the per-channel shift sums of the stages (each within `u8` range),
row count is preserved and row 0 keeps its length and downsamples; on failure
the error is the type-assert panic or `ArithmeticOverflow`. -/
theorem back_sweep_spec (numc : Nat) :
    ∀ (stages : List Stage) (rows : List (List ChannelInfo)),
      rows.length = stages.length + 1 →
      (∀ r ∈ rows, r.length = numc) →
      (∀ s c, s < stages.length → c < numc →
        ((rows.getD (s + 1) []).getD c default_ci).downsample =
          (if (stages.getD s default_stage).uses_channel c then
            (stages.getD s default_stage).shift else (0, 0))) →
      (∀ res, back_sweep numc stages rows = .ok res →
        res.2.length = numc ∧
        (∀ c, c < numc → res.2.getD c (0, 0) = total_shift stages c) ∧
        (∀ c, c < numc → (total_shift stages c).1 ≤ 255 ∧ (total_shift stages c).2 ≤ 255) ∧
        res.1.length = rows.length ∧
        (res.1.getD 0 []).length = numc ∧
        (∀ c, ((res.1.getD 0 []).getD c default_ci).downsample =
          ((rows.getD 0 []).getD c default_ci).downsample)) ∧
      (∀ f, back_sweep numc stages rows = .error f →
        f = .fatal .buildTypeAssert ∨ f = .err .arithmeticOverflow) := by
  intro stages
  induction stages with
  | nil =>
    intro rows hlen hrows _
    constructor
    · intro res h
      cases h
      refine ⟨List.length_replicate _ _, ?_, ?_, rfl, ?_, fun c => rfl⟩
      · intro c _
        rw [total_shift_nil, getD_replicate']
      · intro c _
        rw [total_shift_nil]
        exact ⟨by omega, by omega⟩
      · have hmem : rows.getD 0 [] ∈ rows := by
          cases rows with
          | nil => simp at hlen
          | cons r rs => rw [List.getD_cons_zero]; exact List.mem_cons_self _ _
        exact hrows _ hmem
    · intro f h
      exact (Except.noConfusion h)
  | cons st sts ih =>
    intro rows hlen hrows hcontrib
    cases rows with
    | nil => simp at hlen
    | cons r rest =>
      have hlen' : rest.length = sts.length + 1 := by
        simp only [List.length_cons] at hlen
        omega
      have hrows' : ∀ r' ∈ rest, r'.length = numc :=
        fun r' hr => hrows r' (List.mem_cons_of_mem _ hr)
      have hcontrib' : ∀ s c, s < sts.length → c < numc →
          ((rest.getD (s + 1) []).getD c default_ci).downsample =
            (if (sts.getD s default_stage).uses_channel c then
              (sts.getD s default_stage).shift else (0, 0)) := by
        intro s c hs hc
        have h0 := hcontrib (s + 1) c (by simp only [List.length_cons]; omega) hc
        rw [List.getD_cons_succ, List.getD_cons_succ] at h0
        exact h0
      obtain ⟨ihok, iherr⟩ := ih rest hlen' hrows' hcontrib'
      have hrmem : r.length = numc := hrows r (List.mem_cons_self _ _)
      constructor
      · intro res h
        simp only [back_sweep] at h
        obtain ⟨res', hrec, h⟩ := except_bind_ok _ _ _ h
        obtain ⟨hdl, hdv, hdb, hrl, hr0l, hr0p⟩ := ihok res' hrec
        cases hres1 : res'.1 with
        | nil =>
          exfalso
          rw [hres1] at hrl
          simp only [List.length_nil] at hrl
          omega
        | cons next tail =>
          rw [hres1] at h
          obtain ⟨sres, hsw, h⟩ := except_bind_ok _ _ _ h
          cases h
          obtain ⟨sl1, sl2, spres, svals⟩ := sweep_chans_ok st r next res'.2 0 sres hsw
          have hnextlen : next.length = numc := by
            rw [hres1, List.getD_cons_zero] at hr0l
            exact hr0l
          have hnextds : ∀ c, (next.getD c default_ci).downsample =
              ((rest.getD 0 []).getD c default_ci).downsample := by
            intro c
            have h0 := hr0p c
            rw [hres1, List.getD_cons_zero] at h0
            exact h0
          have hheadcontrib : ∀ c, c < numc →
              ((rest.getD 0 []).getD c default_ci).downsample =
                (if st.uses_channel c then st.shift else (0, 0)) := by
            intro c hc
            have h0 := hcontrib 0 c (by simp) hc
            rw [List.getD_cons_succ, List.getD_cons_zero] at h0
            exact h0
          have htail : tail.length + 1 = rest.length := by
            rw [hres1] at hrl
            simpa using hrl
          have hval : ∀ c, c < numc →
              sres.2.2.getD c (0, 0) = total_shift (st :: sts) c := by
            intro c hc
            have hv := (svals c (by omega)).1
            rw [hv, hdv c hc, hnextds c, hheadcontrib c hc, total_shift_cons]
            by_cases hu : st.uses_channel c
            · rw [if_pos hu, if_pos hu]
              simp only [Prod.mk.injEq]
              omega
            · rw [if_neg hu, if_neg hu]
              simp
          refine ⟨by rw [sl2]; exact hdl, hval, ?_, ?_, ?_, ?_⟩
          · intro c hc
            have hb := svals c (by omega)
            rw [hval c hc] at hb
            exact ⟨hb.2.1, hb.2.2⟩
          · simp only [List.length_cons]
            omega
          · rw [List.getD_cons_zero, sl1]
            exact hrmem
          · intro c
            rw [List.getD_cons_zero, List.getD_cons_zero]
            exact spres c
      · intro f h
        simp only [back_sweep] at h
        rcases except_bind_err _ _ _ h with h | ⟨res', hrec, h⟩
        · exact iherr f h
        · obtain ⟨hdl, hdv, hdb, hrl, hr0l, hr0p⟩ := ihok res' hrec
          cases hres1 : res'.1 with
          | nil =>
            exfalso
            rw [hres1] at hrl
            simp only [List.length_nil] at hrl
            omega
          | cons next tail =>
            rw [hres1] at h
            have hnextlen : next.length = numc := by
              rw [hres1, List.getD_cons_zero] at hr0l
              exact hr0l
            rcases except_bind_err _ _ _ h with h | ⟨sres, hsw, h⟩
            · refine sweep_chans_err st r next res'.2 0 f ?_ ?_ h
              · rw [hrmem, hnextlen]
              · rw [hnextlen, hdl]
            · exact (Except.noConfusion h)

/-- Claim C6 (corrected): for every stage list accepted by `add_stage` from a
fresh builder, a successful `build` allocates per-channel input buffers of
dimensions `(shrc W S.x, shrc H S.y)` where `S` is the componentwise sum of
the `SHIFT` values of exactly the stages using the channel; and if that sum
overflows `u8` addition for some channel, `build` does not succeed — it
returns `ArithmeticOverflow` unless the (buggy, see C3) type-agreement
assertion of the reverse sweep panics first. -/
theorem c6_input_buffer_dims :
    ∀ (numc : Nat) (size : Nat × Nat) (log : Nat) (stages : List Stage)
      (b : SimpleRenderPipelineBuilder),
      build_all numc size log stages = .ok b →
      ((∀ p, build b = .ok p →
         p.input_buffers.length = numc ∧
         ∀ c, c < numc →
           (p.input_buffers.getD c (ImageF.new (0, 0))).size =
             (shrc size.1 (total_shift stages c).1,
              shrc size.2 (total_shift stages c).2)) ∧
       ((∃ c, c < numc ∧
          (255 < (total_shift stages c).1 ∨ 255 < (total_shift stages c).2)) →
        build b = .error (.err .arithmeticOverflow) ∨
        build b = .error (.fatal .buildTypeAssert))) := by
  intro numc size log stages b hba
  obtain ⟨hinv, hstk⟩ :=
    build_all_inv stages numc size (builder_new numc size log) b
      (builder_inv_new numc size log) hba
  have hstages : b.pipeline.stages = stages := by simpa using hstk
  obtain ⟨hsz, hlen, hrows, hcontrib⟩ := hinv
  have hne : b.pipeline.channel_info ≠ [] := by
    intro hn
    rw [hn] at hlen
    simp at hlen
  have hnumc : (b.pipeline.channel_info.headD []).length = numc := by
    rw [headD_eq_getD]
    have hmem : b.pipeline.channel_info.getD 0 [] ∈ b.pipeline.channel_info := by
      cases hc : b.pipeline.channel_info with
      | nil => exact absurd hc hne
      | cons r rs => rw [List.getD_cons_zero]; exact List.mem_cons_self _ _
    exact hrows _ hmem
  obtain ⟨hbsok, hbserr⟩ :=
    back_sweep_spec numc b.pipeline.stages b.pipeline.channel_info hlen hrows hcontrib
  constructor
  · intro p hp
    unfold build at hp
    rw [hnumc] at hp
    obtain ⟨res, hres, hp⟩ := except_bind_ok _ _ _ hp
    obtain ⟨hdl, hdv, hdb, hrl, hr0l, hr0p⟩ := hbsok res hres
    have hheadlen : (res.1.headD []).length = numc := by
      rw [headD_eq_getD]; exact hr0l
    have hrow0len : (set_row0_ds (res.1.headD []) res.2).length = numc := by
      simp only [set_row0_ds, List.length_zipWith]
      rw [hheadlen, hdl]
      simp
    split at hp
    · exact (Except.noConfusion hp)
    · cases hp
      constructor
      · simp only [List.length_map]
        exact hrow0len
      · intro c hc
        have hcm : c < ((set_row0_ds (res.1.headD []) res.2).map (fun x =>
            ImageF.new (shrc b.pipeline.input_size.1 x.downsample.1,
                        shrc b.pipeline.input_size.2 x.downsample.2))).length := by
          rw [List.length_map, hrow0len]
          exact hc
        rw [List.getD_eq_getElem _ _ hcm, List.getElem_map]
        rw [← List.getD_eq_getElem _ default_ci (by rw [hrow0len]; exact hc)]
        rw [getD_set_row0_ds _ _ c (by rw [hheadlen]; exact hc) (by rw [hdl]; exact hc)]
        rw [show ({ (res.1.headD []).getD c default_ci with
              downsample := res.2.getD c (0, 0) } : ChannelInfo).downsample =
            res.2.getD c (0, 0) from rfl]
        rw [hdv c hc, hstages, hsz]
        rfl
  · rintro ⟨c, hc, hover⟩
    cases hb2 : build b with
    | ok p =>
      exfalso
      unfold build at hb2
      rw [hnumc] at hb2
      obtain ⟨res, hres, -⟩ := except_bind_ok _ _ _ hb2
      have hb255 := (hbsok res hres).2.2.1 c hc
      rw [hstages] at hb255
      rcases hover with hover | hover
      · omega
      · omega
    | error f =>
      have hb2' := hb2
      unfold build at hb2'
      rw [hnumc] at hb2'
      rcases except_bind_err _ _ _ hb2' with hb3 | ⟨res, hres, -⟩
      · rcases hbserr f hb3 with h | h
        · right
          rw [h]
        · left
          rw [h]
      · exfalso
        have hb255 := (hbsok res hres).2.2.1 c hc
        rw [hstages] at hb255
        rcases hover with hover | hover
        · omega
        · omega

/-- Witness for C6 on the built 6-by-2 single-channel pipeline with one save
stage: one input buffer of size `(shrc 6 0, shrc 2 0) = (6, 2)`. -/
theorem c6_input_buffer_dims_witness :
    cex_pipeline.input_buffers.length = 1 ∧
    (cex_pipeline.input_buffers.getD 0 (ImageF.new (0, 0))).size =
      (shrc 6 (total_shift [input_stage 0 .u8] 0).1,
       shrc 2 (total_shift [input_stage 0 .u8] 0).2) := by
  have h :=
    (c6_input_buffer_dims 1 (6, 2) 1 [input_stage 0 .u8] cex_builder rfl).1
      cex_pipeline rfl
  exact ⟨h.1, h.2 0 (by omega)⟩

end JXL
